import Mathlib

/-!
Verification of the bordereaux ingestion pipeline.

A shallow embedding, in Lean, of the core of the bordereaux ingestion and
processing service (`app/services` and `app/jobs` of the source tree), together
with theorems settling the specification claims about it.

Conventions of the embedding:
* Python strings are `String` / `List Char`; machine integers are `Nat`/`Int`;
  JSON numbers and Python floats used in rule thresholds are embedded as exact
  rationals (`Rat`) or as equivalent integer inequalities.
* Python `Decimal` values are modelled by their sign, coefficient and scale.
* Stateful code (the SQLAlchemy session, the file store on disk) is embedded as
  explicit state passing over a `DBState` record; a commit is the point where
  the new state replaces the old.
* Fallible code returns `Except`; an exception that the source does not catch
  shows up as an `Except.error` result.
-/

namespace Bordereaux

/-- Python exception kinds relevant to the normalization kernel: `Decimal`
signals malformed input with `decimal.InvalidOperation`, while the `except`
clause of `parse_decimal` names `ValueError` and `TypeError` only. -/
inductive PyExc where
  | invalidOperation
  | valueError
  | typeError
  deriving DecidableEq

/-- Result of running a Python function: a value, or an uncaught exception. -/
abbrev PyResult (α : Type) := Except PyExc α

/-- Python `str.strip`: drop leading and trailing whitespace. -/
def trimChars (l : List Char) : List Char :=
  ((l.dropWhile Char.isWhitespace).reverse.dropWhile Char.isWhitespace).reverse

/-- Python `str.replace(pat, "")`: remove every non-overlapping occurrence of
`pat`, scanning left to right.  The fuel argument starts at the length of the
scanned list; every step consumes at least one character because the patterns
in use (currency symbols and codes) are nonempty. -/
def removeOccAux (pat : List Char) : Nat → List Char → List Char
  | 0, _ => []
  | _, [] => []
  | fuel + 1, c :: cs =>
    if pat.isPrefixOf (c :: cs) then
      removeOccAux pat fuel ((c :: cs).drop pat.length)
    else
      c :: removeOccAux pat fuel cs

/-- Python `str.replace(pat, "")` on character lists. -/
def removeOcc (pat l : List Char) : List Char :=
  removeOccAux pat l.length l

/-- The `currency_symbols` list of `parse_decimal` (normalization.py line 142),
in source order: `R` is replaced before `ZAR`. -/
def currencySymbols : List (List Char) :=
  [['$'], ['€'], ['£'], ['¥'], ['₹'], ['R'], ['Z', 'A', 'R'],
   ['U', 'S', 'D'], ['E', 'U', 'R'], ['G', 'B', 'P']]

/-- The currency-stripping loop of `parse_decimal` (lines 143-145):
`cleaned = cleaned.replace(symbol, '').strip()` for each symbol in order. -/
def stripCurrency (l : List Char) : List Char :=
  currencySymbols.foldl (fun acc sym => trimChars (removeOcc sym acc)) l

/-- Index of the last occurrence of `c` (Python `str.rfind`); `none` when
`c` does not occur. -/
def lastIdx (c : Char) : List Char → Option Nat
  | [] => none
  | a :: as =>
    match lastIdx c as with
    | some i => some (i + 1)
    | none => if a = c then some 0 else none

/-- The thousand/decimal separator normalization of `parse_decimal`
(lines 147-165).  When both `,` and `.` occur, the one occurring last is the
decimal separator: European format removes the dots and turns the commas into
dots, US format removes the commas.  In the comma-only case both source
branches remove every comma. -/
def sepClean (l : List Char) : List Char :=
  if l.contains ',' && l.contains '.' then
    match lastIdx ',' l, lastIdx '.' l with
    | some commaPos, some dotPos =>
      if commaPos > dotPos then
        (l.filter (fun c => c != '.')).map (fun c => if c = ',' then '.' else c)
      else
        l.filter (fun c => c != ',')
    | _, _ => l
  else if l.contains ',' then
    if l.count ',' == 1 && !(l.getLast? == some ',') then
      l.filter (fun c => c != ',')
    else
      l.filter (fun c => c != ',')
  else l

/-- The value of a Python `Decimal` built from a cleaned numeric string:
sign, coefficient, and number of fractional digits. -/
structure Dec where
  neg : Bool
  coeff : Nat
  scale : Nat
  deriving DecidableEq

/-- Numeric value of a digit string. -/
def digitsVal (l : List Char) : Nat :=
  l.foldl (fun a c => 10 * a + (c.toNat - '0'.toNat)) 0

/-- Semantics of `Decimal(cleaned)` over the characters that survive the numeric filter
(digits, `.` and `-`): the accepted syntax is an optional leading `-`, then
digits with at most one `.` and at least one digit in total; anything else
raises `decimal.InvalidOperation`. -/
def decimalOfChars (l : List Char) : PyResult Dec :=
  let signSplit :=
    match l with
    | '-' :: rest => (true, rest)
    | _ => (false, l)
  let neg := signSplit.1
  let body := signSplit.2
  if body.count '.' == 0 then
    if !body.isEmpty && body.all Char.isDigit then
      .ok ⟨neg, digitsVal body, 0⟩
    else
      .error .invalidOperation
  else if body.count '.' == 1 then
    let ip := body.takeWhile (fun c => c != '.')
    let fp := (body.dropWhile (fun c => c != '.')).tail
    if ip.all Char.isDigit && fp.all Char.isDigit && (!ip.isEmpty || !fp.isEmpty) then
      .ok ⟨neg, digitsVal (ip ++ fp), fp.length⟩
    else
      .error .invalidOperation
  else
    .error .invalidOperation

/-- Embedding of `parse_decimal` (normalization.py lines 136-178), string branch: strip,
remove currency symbols and codes, resolve the thousand/decimal separators,
keep only digits, `.` and `-`, reject the lone cases, then build a `Decimal`.
The final `try/except` catches `ValueError` and `TypeError` only; `Decimal`
raises `InvalidOperation` on malformed syntax, which therefore escapes. -/
def parse_decimal (s : String) : PyResult (Option Dec) :=
  let v := trimChars s.data
  if v.isEmpty then .ok none
  else
    let cleaned := stripCurrency v
    let separated := sepClean cleaned
    let kept := separated.filter (fun c => c.isDigit || c == '.' || c == '-')
    if kept.isEmpty || kept == ['.'] || kept == ['-'] then .ok none
    else
      match decimalOfChars kept with
      | .ok d => .ok (some d)
      | .error .valueError => .ok none
      | .error .typeError => .ok none
      | .error .invalidOperation => .error .invalidOperation

/-- C9: separator detection works as claimed (`"1.234,56"` and `"1,234.56"`
both parse to 1234.56, currency symbols are stripped, a lone `-` or `.` gives
null), but the final clause of the claim fails: a parse failure such as
`"1.2.3"` does not yield null — `Decimal` raises `InvalidOperation`, the
`except (ValueError, TypeError)` clause does not catch it, and the exception
escapes `parse_decimal`. -/
theorem C9_parse_decimal_eval :
    parse_decimal "1.234,56" = .ok (some ⟨false, 123456, 2⟩) ∧
    parse_decimal "1,234.56" = .ok (some ⟨false, 123456, 2⟩) ∧
    parse_decimal "$1,234.56" = .ok (some ⟨false, 123456, 2⟩) ∧
    parse_decimal "-" = .ok none ∧
    parse_decimal "." = .ok none ∧
    parse_decimal "1.2.3" = .error .invalidOperation :=
  ⟨rfl, rfl, rfl, rfl, rfl, rfl⟩

/-- C10: the normalization kernel is not total: `parse_decimal "--5"` raises
an uncaught `decimal.InvalidOperation` instead of returning null, because the
`except` clause catches only `ValueError` and `TypeError`. -/
theorem C10_parse_decimal_raises :
    parse_decimal "--5" = .error PyExc.invalidOperation :=
  rfl

/-! Section: Template matcher (pipeline_service.py) -/

/-- Collapse runs of `_` into a single `_` (the `re.sub(r'_+', '_', ...)`
step of `_normalize_column_name`). -/
def collapseUnderscores : List Char → List Char
  | [] => []
  | [c] => [c]
  | c₁ :: c₂ :: rest =>
    if c₁ == '_' && c₂ == '_' then collapseUnderscores (c₂ :: rest)
    else c₁ :: collapseUnderscores (c₂ :: rest)

/-- Python `str.strip('_')`. -/
def stripUnderscores (l : List Char) : List Char :=
  ((l.dropWhile (fun c => c == '_')).reverse.dropWhile (fun c => c == '_')).reverse

/-- Embedding of `_normalize_column_name` (pipeline_service.py lines 28-45): empty input
gives `""`; otherwise strip, lower-case, replace every character outside
`[a-z0-9_]` with `_`, collapse runs of `_`, strip leading/trailing `_`. -/
def normalizeColumnName (s : String) : String :=
  if s.isEmpty then ""
  else
    let lowered := (trimChars s.data).map Char.toLower
    let replaced := lowered.map (fun c =>
      if ('a' ≤ c && c ≤ 'z') || ('0' ≤ c && c ≤ '9') || c == '_' then c else '_')
    String.mk (stripUnderscores (collapseUnderscores replaced))

/-- A template as the matcher sees it: its stable id and the insertion-ordered
`column_mappings` entries (source header spelling → canonical field). -/
structure Template where
  templateId : String
  columnMappings : List (String × String)
  deriving DecidableEq

/-- The normalized template columns
(`[self._normalize_column_name(c) for c in template.column_mappings.keys()]`). -/
def normTemplateCols (t : Template) : List String :=
  (t.columnMappings.map Prod.fst).map normalizeColumnName

/-- Count `matches`: the number of normalized template columns found among the
normalized file headers (counted with multiplicity, as in the source's
`sum(1 for col in normalized_template_cols if col in normalized_headers)`). -/
def matchCount (cols normHeaders : List String) : Nat :=
  (cols.filter (fun col => normHeaders.contains col)).length

/-- The exact-match condition of `_find_matching_template` (lines 104-108):
all template columns are present and the file has no extra columns. -/
def exactMatchB (t : Template) (normHeaders : List String) : Bool :=
  let cols := normTemplateCols t
  matchCount cols normHeaders == cols.length && !(normHeaders.length > cols.length)

/-- The lenient-match condition (lines 113-118):
`matches > 0`, `matches >= len(cols) * 0.99`, and
`(len(H) - len(cols)) / len(cols) <= 0.1`.  The float thresholds are embedded
exactly over the rationals, as the integer inequalities
`100·matches ≥ 99·|cols|` and `10·(|H| − |cols|) ≤ |cols|`. -/
def lenientMatchB (t : Template) (normHeaders : List String) : Bool :=
  let cols := normTemplateCols t
  decide (0 < matchCount cols normHeaders) &&
  decide (99 * cols.length ≤ 100 * matchCount cols normHeaders) &&
  decide (10 * ((normHeaders.length : Int) - cols.length) ≤ (cols.length : Int))

/-- One iteration of the template scan: a template with empty
`column_mappings` is skipped (`continue`), otherwise it is returned on an
exact match, and failing that on a lenient match. -/
def templateMatchesB (t : Template) (normHeaders : List String) : Bool :=
  if t.columnMappings.isEmpty then false
  else exactMatchB t normHeaders || lenientMatchB t normHeaders

/-- Embedding of `_find_matching_template` (pipeline_service.py lines 47-120): normalize
the file headers, scan the active templates in order, and return the first
that matches exactly or leniently. -/
def findMatchingTemplate (templates : List Template) (fileHeaders : List String) :
    Option Template :=
  let normHeaders := fileHeaders.map normalizeColumnName
  templates.find? (fun t => templateMatchesB t normHeaders)

/-- First template of the C2 scenario: ten columns `a0` … `a9`. -/
def tmplA : Template :=
  ⟨"tmpl_a",
   [("a0", "policy_number"), ("a1", "insured_name"), ("a2", "inception_date"),
    ("a3", "expiry_date"), ("a4", "premium_amount"), ("a5", "currency"),
    ("a6", "claim_amount"), ("a7", "commission_amount"), ("a8", "net_premium"),
    ("a9", "broker_name")]⟩

/-- Second template of the C2 scenario: the same ten columns plus `b0`. -/
def tmplB : Template :=
  ⟨"tmpl_b", tmplA.columnMappings ++ [("b0", "product_type")]⟩

/-- The eleven file headers of the C2 scenario. -/
def hdrsAB : List String :=
  ["a0", "a1", "a2", "a3", "a4", "a5", "a6", "a7", "a8", "a9", "b0"]

/-- C2 counterexample: with scan order `[tmplA, tmplB]` and the eleven headers
`hdrsAB`, template `tmplB` satisfies the exact condition
(`m = |T.keys| = 11` and `|H| = 11`), yet the matcher returns `tmplA`, which
does not match exactly (ten keys, one extra header) and qualifies only under
the lenient rule — the lenient rule is applied per template inside the scan,
not as a global fallback. -/
theorem C2_counterexample :
    findMatchingTemplate [tmplA, tmplB] hdrsAB = some tmplA ∧
    matchCount (normTemplateCols tmplB) (hdrsAB.map normalizeColumnName) =
      (normTemplateCols tmplB).length ∧
    hdrsAB.length = (normTemplateCols tmplB).length ∧
    exactMatchB tmplB (hdrsAB.map normalizeColumnName) = true ∧
    exactMatchB tmplA (hdrsAB.map normalizeColumnName) = false ∧
    lenientMatchB tmplA (hdrsAB.map normalizeColumnName) = true := by
  decide

/-- Lemma: `List.find?` returns the first element satisfying the predicate: the
result satisfies it and every earlier element fails it. -/
theorem find_first_characterization {α : Type} (p : α → Bool) :
    ∀ (l : List α) (a : α), l.find? p = some a →
      p a = true ∧ ∃ i : Nat, l.get? i = some a ∧
        ∀ j, j < i → ∀ u, l.get? j = some u → p u = false := by
  intro l
  induction l with
  | nil => intro a h; simp [List.find?] at h
  | cons x xs ih =>
    intro a h
    by_cases hx : p x = true
    · simp [List.find?, hx] at h
      subst h
      exact ⟨hx, 0, rfl, fun j hj u hu => absurd hj (Nat.not_lt_zero j)⟩
    · rw [Bool.not_eq_true] at hx
      simp [List.find?, hx] at h
      obtain ⟨hpa, i, hi, hearlier⟩ := ih a h
      refine ⟨hpa, i + 1, hi, fun j hj u hu => ?_⟩
      match j with
      | 0 => simp at hu; simp [hu ▸ hx]
      | j + 1 => exact hearlier j (Nat.lt_of_succ_lt_succ hj) u hu

/-- C2 amended: the lenient rule is a per-template fallback, not a global one.
The matcher returns the first template in scan order satisfying its own exact
or lenient condition (templates with empty mappings never match); an exact
match of a later template does not prevent an earlier template from being
returned via the lenient rule. -/
theorem C2_first_match_in_scan_order (templates : List Template)
    (fileHeaders : List String) (t : Template)
    (h : findMatchingTemplate templates fileHeaders = some t) :
    templateMatchesB t (fileHeaders.map normalizeColumnName) = true ∧
    ∃ i : Nat, templates.get? i = some t ∧
      ∀ j, j < i → ∀ u, templates.get? j = some u →
        templateMatchesB u (fileHeaders.map normalizeColumnName) = false :=
  find_first_characterization _ templates t h

/-- Witness for the amended C2 theorem at the concrete scenario. -/
theorem C2_first_match_in_scan_order_witness :
    templateMatchesB tmplA (hdrsAB.map normalizeColumnName) = true ∧
    ∃ i : Nat, ([tmplA, tmplB].get? i) = some tmplA ∧
      ∀ j, j < i → ∀ u, ([tmplA, tmplB].get? j) = some u →
        templateMatchesB u (hdrsAB.map normalizeColumnName) = false :=
  C2_first_match_in_scan_order [tmplA, tmplB] hdrsAB tmplA (by decide)

/-! Section: Data model enums (models/bordereaux.py) -/

/-- The `Currency` enum. -/
inductive Currency where
  | usd | eur | gbp | cad | aud | jpy | chf | zar | ngn | ghs | kes
  deriving DecidableEq

/-- The `FileStatus` enum. -/
inductive FileStatus where
  | pending
  | received
  | newTemplateRequired
  | processing
  | processedOk
  | processedWithErrors
  | completed
  | failed
  deriving DecidableEq

/-! Section: Validation service (validation_service.py) -/

/-- The thirteen canonical fields of `BordereauxRowCreate`. -/
inductive CField where
  | policyNumber | insuredName | inceptionDate | expiryDate | premiumAmount
  | currency | claimAmount | commissionAmount | netPremium | brokerName
  | productType | coverageType | riskLocation
  deriving DecidableEq

/-- The canonical field names, as the rules document spells them. -/
def cfieldName : CField → String
  | .policyNumber => "policy_number"
  | .insuredName => "insured_name"
  | .inceptionDate => "inception_date"
  | .expiryDate => "expiry_date"
  | .premiumAmount => "premium_amount"
  | .currency => "currency"
  | .claimAmount => "claim_amount"
  | .commissionAmount => "commission_amount"
  | .netPremium => "net_premium"
  | .brokerName => "broker_name"
  | .productType => "product_type"
  | .coverageType => "coverage_type"
  | .riskLocation => "risk_location"

/-- A canonical scalar value: string fields, date fields (as day numbers,
order-isomorphic to `datetime.date`), decimal-bearing fields (as exact
rationals) and the currency enum. -/
inductive FVal where
  | s (v : String)
  | d (v : Nat)
  | q (v : Rat)
  | c (v : Currency)
  deriving DecidableEq

/-- Model of `BordereauxRowCreate`: the thirteen nullable canonical fields plus
`file_id`, `row_number` and `raw_data`. -/
structure CanonicalRow where
  policyNumber : Option String := none
  insuredName : Option String := none
  inceptionDate : Option Nat := none
  expiryDate : Option Nat := none
  premiumAmount : Option Rat := none
  currency : Option Currency := none
  claimAmount : Option Rat := none
  commissionAmount : Option Rat := none
  netPremium : Option Rat := none
  brokerName : Option String := none
  productType : Option String := none
  coverageType : Option String := none
  riskLocation : Option String := none
  fileId : Nat := 0
  rowNumber : Option Nat := none
  rawData : Option String := none
  deriving DecidableEq

/-- Semantics of `getattr(row, field_name, None)` over the canonical fields. -/
def getField (r : CanonicalRow) : CField → Option FVal
  | .policyNumber => r.policyNumber.map .s
  | .insuredName => r.insuredName.map .s
  | .inceptionDate => r.inceptionDate.map .d
  | .expiryDate => r.expiryDate.map .d
  | .premiumAmount => r.premiumAmount.map .q
  | .currency => r.currency.map .c
  | .claimAmount => r.claimAmount.map .q
  | .commissionAmount => r.commissionAmount.map .q
  | .netPremium => r.netPremium.map .q
  | .brokerName => r.brokerName.map .s
  | .productType => r.productType.map .s
  | .coverageType => r.coverageType.map .s
  | .riskLocation => r.riskLocation.map .s

/-- One validation-error dictionary as built by the validation service.  The
source renders `field_value` with `str(...)`; the embedding keeps the values
themselves (`[]` for `None`, the compared pair for date rules). -/
structure ErrRec where
  rowIndex : Nat
  errorCode : String
  errorMessage : String
  fieldName : Option String
  fieldValue : List FVal
  ruleName : Option String
  deriving DecidableEq

/-- Embedding of `_validate_required_fields` (lines 81-111): one error per required field
whose value is null. -/
def requiredFieldErrors (fields : List CField) (idx : Nat) (r : CanonicalRow) :
    List ErrRec :=
  fields.filterMap (fun f =>
    if (getField r f).isNone then
      some { rowIndex := idx, errorCode := "REQUIRED_FIELD_MISSING",
             errorMessage := "Required field " ++ cfieldName f ++ " is missing or null",
             fieldName := some (cfieldName f), fieldValue := [],
             ruleName := some "required_field" }
    else none)

/-- A `date_rules` entry of the rules document. -/
structure DateRule where
  name : String
  inceptionField : Option CField
  expiryField : Option CField
  message : String
  deriving DecidableEq

/-- The ISO code of a `Currency` value (the underlying `str` of the enum). -/
def currencyCode : Currency → String
  | .usd => "USD"
  | .eur => "EUR"
  | .gbp => "GBP"
  | .cad => "CAD"
  | .aud => "AUD"
  | .jpy => "JPY"
  | .chf => "CHF"
  | .zar => "ZAR"
  | .ngn => "NGN"
  | .ghs => "GHS"
  | .kes => "KES"

/-- Python `>` on two canonical values of the same kind (strings and currency
codes compare lexicographically, as `str` does).  A mixed-kind comparison
would raise `TypeError` in the source; it cannot arise for the rule documents
in scope (date rules name date-typed fields), and the embedding returns
`false` there. -/
def fvalGt : FVal → FVal → Bool
  | .d a, .d b => decide (a > b)
  | .q a, .q b => decide (a > b)
  | .s a, .s b => decide (b < a)
  | .c a, .c b => decide (currencyCode b < currencyCode a)
  | _, _ => false

/-- Embedding of `_validate_date_rules` (lines 113-153): when both named fields are
non-null and inception > expiry, emit a `DATE_VALIDATION_FAILED` error. -/
def dateRuleErrors (rules : List DateRule) (idx : Nat) (r : CanonicalRow) :
    List ErrRec :=
  rules.filterMap (fun rule =>
    match rule.inceptionField, rule.expiryField with
    | some incF, some expF =>
      match getField r incF, getField r expF with
      | some iv, some ev =>
        if fvalGt iv ev then
          some { rowIndex := idx, errorCode := "DATE_VALIDATION_FAILED",
                 errorMessage := rule.message,
                 fieldName := some (cfieldName incF ++ "," ++ cfieldName expF),
                 fieldValue := [iv, ev], ruleName := some rule.name }
        else none
      | _, _ => none
    | _, _ => none)

/-- A `numeric_rules` entry of the rules document. -/
structure NumericRule where
  name : String
  field : Option CField
  minValue : Option Rat
  maxValue : Option Rat
  message : String
  deriving DecidableEq

/-- Semantics of `float(value)` on a canonical value: decimal-bearing fields convert;
`float` on a date raises `TypeError` and on a currency code `ValueError`,
both caught by the source and reported as invalid numeric values.  The string
fields in scope never hold numeric text, so `float` on them also fails. -/
def pyFloat : FVal → Option Rat
  | .q v => some v
  | .s _ => none
  | .d _ => none
  | .c _ => none

/-- Embedding of `_validate_numeric_rules` (lines 155-217): for a named field with a
non-null value, a failed `float(...)` gives `INVALID_NUMERIC_VALUE`; a value
below `min_value` or above `max_value` gives `NUMERIC_VALIDATION_FAILED`. -/
def numericRuleErrors (rules : List NumericRule) (idx : Nat) (r : CanonicalRow) :
    List ErrRec :=
  rules.flatMap (fun rule =>
    match rule.field with
    | none => []
    | some f =>
      match getField r f with
      | none => []
      | some v =>
        match pyFloat v with
        | none =>
          [{ rowIndex := idx, errorCode := "INVALID_NUMERIC_VALUE",
             errorMessage := "Field " ++ cfieldName f ++ " contains invalid numeric value",
             fieldName := some (cfieldName f), fieldValue := [v],
             ruleName := some rule.name }]
        | some x =>
          (match rule.minValue with
           | some m =>
             if x < m then
               [{ rowIndex := idx, errorCode := "NUMERIC_VALIDATION_FAILED",
                  errorMessage := rule.message,
                  fieldName := some (cfieldName f), fieldValue := [v],
                  ruleName := some rule.name }]
             else []
           | none => []) ++
          (match rule.maxValue with
           | some m =>
             if x > m then
               [{ rowIndex := idx, errorCode := "NUMERIC_VALIDATION_FAILED",
                  errorMessage := rule.message,
                  fieldName := some (cfieldName f), fieldValue := [v],
                  ruleName := some rule.name }]
             else []
           | none => []))

/-- A rules document (`rules.json` / `_get_default_rules`). -/
structure Rules where
  requiredFields : List CField
  dateRules : List DateRule
  numericRules : List NumericRule

/-- Embedding of `_get_default_rules` (lines 35-79). -/
def defaultRules : Rules where
  requiredFields := [.policyNumber]
  dateRules :=
    [{ name := "inception_before_expiry", inceptionField := some .inceptionDate,
       expiryField := some .expiryDate,
       message := "Inception date must be before or equal to expiry date" }]
  numericRules :=
    [{ name := "premium_non_negative", field := some .premiumAmount,
       minValue := some 0, maxValue := none,
       message := "Premium amount must be greater than or equal to 0" },
     { name := "claim_non_negative", field := some .claimAmount,
       minValue := some 0, maxValue := none,
       message := "Claim amount must be greater than or equal to 0" },
     { name := "commission_non_negative", field := some .commissionAmount,
       minValue := some 0, maxValue := none,
       message := "Commission amount must be greater than or equal to 0" },
     { name := "net_premium_non_negative", field := some .netPremium,
       minValue := some 0, maxValue := none,
       message := "Net premium must be greater than or equal to 0" }]

/-- All errors one row produces, in the order the source accumulates them:
required fields, then date rules, then numeric rules. -/
def rowErrors (rules : Rules) (idx : Nat) (r : CanonicalRow) : List ErrRec :=
  requiredFieldErrors rules.requiredFields idx r ++
  dateRuleErrors rules.dateRules idx r ++
  numericRuleErrors rules.numericRules idx r

/-- The loop of `validate_rows` (lines 219-254), with the running row index
made explicit: a row with errors contributes its errors and is dropped from
the valid rows; a clean row is kept. -/
def validateRowsAux (rules : Rules) : Nat → List CanonicalRow →
    List CanonicalRow × List ErrRec
  | _, [] => ([], [])
  | idx, r :: rs =>
    let errs := rowErrors rules idx r
    let rest := validateRowsAux rules (idx + 1) rs
    if errs.isEmpty then (r :: rest.1, rest.2) else (rest.1, errs ++ rest.2)

/-- Embedding of `validate_rows`: validate a list of canonical rows against the rules,
returning the valid rows and the accumulated error dictionaries. -/
def validateRows (rules : Rules) (rows : List CanonicalRow) :
    List CanonicalRow × List ErrRec :=
  validateRowsAux rules 0 rows

/-- Every error record built by the required-field checker carries the row
index it was built for. -/
theorem requiredFieldErrors_rowIndex (fields : List CField) (idx : Nat)
    (r : CanonicalRow) : ∀ e ∈ requiredFieldErrors fields idx r, e.rowIndex = idx := by
  intro e he
  simp only [requiredFieldErrors, List.mem_filterMap] at he
  obtain ⟨f, -, hf⟩ := he
  split at hf
  · cases hf; rfl
  · exact absurd hf (by simp)

/-- Every error record built by the date-rule checker carries the row index
it was built for. -/
theorem dateRuleErrors_rowIndex (rules : List DateRule) (idx : Nat)
    (r : CanonicalRow) : ∀ e ∈ dateRuleErrors rules idx r, e.rowIndex = idx := by
  intro e he
  simp only [dateRuleErrors, List.mem_filterMap] at he
  obtain ⟨rule, -, hg⟩ := he
  repeat' split at hg
  all_goals simp_all
  exact hg ▸ rfl

/-- Every error record built by the numeric-rule checker carries the row
index it was built for. -/
theorem numericRuleErrors_rowIndex (rules : List NumericRule) (idx : Nat)
    (r : CanonicalRow) : ∀ e ∈ numericRuleErrors rules idx r, e.rowIndex = idx := by
  intro e he
  simp only [numericRuleErrors, List.mem_flatMap] at he
  obtain ⟨rule, -, hg⟩ := he
  repeat' split at hg
  all_goals simp_all

/-- Every error `validate_rows` attributes to a row carries that row's
index. -/
theorem rowErrors_rowIndex (rules : Rules) (idx : Nat) (r : CanonicalRow) :
    ∀ e ∈ rowErrors rules idx r, e.rowIndex = idx := by
  intro e he
  rcases List.mem_append.mp he with h | h
  · rcases List.mem_append.mp h with h₁ | h₁
    · exact requiredFieldErrors_rowIndex _ _ _ e h₁
    · exact dateRuleErrors_rowIndex _ _ _ e h₁
  · exact numericRuleErrors_rowIndex _ _ _ e h

/-- Errors accumulated from row index `idx` on have row index at least
`idx`. -/
theorem validateRowsAux_rowIndex_ge (rules : Rules) :
    ∀ (rows : List CanonicalRow) (idx : Nat),
      ∀ e ∈ (validateRowsAux rules idx rows).2, idx ≤ e.rowIndex := by
  intro rows
  induction rows with
  | nil => intro idx e he; simp [validateRowsAux] at he
  | cons r rs ih =>
    intro idx e he
    simp only [validateRowsAux] at he
    split at he
    · exact Nat.le_of_succ_le (ih (idx + 1) e he)
    · rcases List.mem_append.mp he with h | h
      · exact Nat.le_of_eq (rowErrors_rowIndex rules idx r e h).symm
      · exact Nat.le_of_succ_le (ih (idx + 1) e h)

/-- Closed form of the `validate_rows` loop: the valid rows are the
no-error rows in order, and the error list is the concatenation, in row
order, of each row's errors. -/
theorem validateRowsAux_spec (rules : Rules) :
    ∀ (rows : List CanonicalRow) (idx : Nat),
      validateRowsAux rules idx rows =
        (((List.enumFrom idx rows).filter
            (fun p => (rowErrors rules p.1 p.2).isEmpty)).map Prod.snd,
         (List.enumFrom idx rows).flatMap (fun p => rowErrors rules p.1 p.2)) := by
  intro rows
  induction rows with
  | nil => intro idx; simp [validateRowsAux]
  | cons r rs ih =>
    intro idx
    by_cases h : (rowErrors rules idx r).isEmpty = true
    · have hnil : rowErrors rules idx r = [] := List.isEmpty_iff.mp h
      simp [validateRowsAux, h, ih (idx + 1), hnil]
    · simp [validateRowsAux, h, ih (idx + 1)]

/-- Counting `dedup`: a nonempty constant block followed by a list avoiding
the constant contributes exactly one distinct element. -/
theorem dedup_const_append_length (k : Nat) :
    ∀ (l₁ l₂ : List Nat), (∀ x ∈ l₁, x = k) → l₁ ≠ [] → k ∉ l₂ →
      ((l₁ ++ l₂).dedup).length = l₂.dedup.length + 1 := by
  intro l₁
  induction l₁ with
  | nil => intro l₂ _ h; cases h rfl
  | cons a l₁ ih =>
    intro l₂ hall _ hk
    have ha : a = k := hall a (by simp)
    cases l₁ with
    | nil => subst ha; simp [List.dedup_cons_of_not_mem hk]
    | cons b l₁ =>
      have hb : b = k := hall b (by simp)
      have hmem : a ∈ (b :: l₁) ++ l₂ := by simp [ha, hb]
      rw [List.cons_append, List.dedup_cons_of_mem hmem]
      exact ih l₂ (fun x hx => hall x (by simp [hx])) (by simp) hk

/-- The count form of the partition: valid rows plus distinct erroring row
indices add up to the number of input rows. -/
theorem validateRowsAux_count (rules : Rules) :
    ∀ (rows : List CanonicalRow) (idx : Nat),
      (validateRowsAux rules idx rows).1.length +
        (((validateRowsAux rules idx rows).2.map ErrRec.rowIndex).dedup).length =
        rows.length := by
  intro rows
  induction rows with
  | nil => intro idx; simp [validateRowsAux]
  | cons r rs ih =>
    intro idx
    have hrec := ih (idx + 1)
    by_cases h : (rowErrors rules idx r).isEmpty = true
    · simp only [validateRowsAux, h, if_true, List.length_cons]
      omega
    · have hne : rowErrors rules idx r ≠ [] := by
        intro hnil; simp [hnil] at h
      have hmapne : (rowErrors rules idx r).map ErrRec.rowIndex ≠ [] := by
        simp [hne]
      have hconst : ∀ x ∈ (rowErrors rules idx r).map ErrRec.rowIndex, x = idx := by
        intro x hx
        obtain ⟨e, he, hex⟩ := List.mem_map.mp hx
        exact hex ▸ rowErrors_rowIndex rules idx r e he
      have hnotmem : idx ∉ ((validateRowsAux rules (idx + 1) rs).2.map ErrRec.rowIndex) := by
        intro hx
        obtain ⟨e, he, hex⟩ := List.mem_map.mp hx
        have := validateRowsAux_rowIndex_ge rules rs (idx + 1) e he
        omega
      simp only [validateRowsAux, h, if_false, Bool.false_eq_true, if_neg]
      rw [List.map_append,
        dedup_const_append_length idx _ _ hconst hmapne hnotmem]
      simp only [List.length_cons]
      omega

/-- C8: `validate_rows` partitions its input.  The valid rows are exactly the
input rows that produced no errors (in order), the error list is the
concatenation of every row's errors (so multiple errors per row are all
reported and an erroring row is excluded from the valid rows entirely), and
the number of valid rows plus the number of distinct erroring row indices
equals the number of input rows. -/
theorem C8_validate_rows_partition (rules : Rules) (rows : List CanonicalRow) :
    (validateRows rules rows).1 =
      ((List.enumFrom 0 rows).filter
        (fun p => (rowErrors rules p.1 p.2).isEmpty)).map Prod.snd ∧
    (validateRows rules rows).2 =
      (List.enumFrom 0 rows).flatMap (fun p => rowErrors rules p.1 p.2) ∧
    (validateRows rules rows).1.length +
      (((validateRows rules rows).2.map ErrRec.rowIndex).dedup).length =
      rows.length := by
  refine ⟨?_, ?_, validateRowsAux_count rules rows 0⟩ <;>
    rw [validateRows, validateRowsAux_spec rules rows 0]

/-! Section: Storage layer and database state (storage_service.py, models) -/

/-- A `bordereaux_files` row, with the fields the claims touch. -/
structure FileRec where
  id : Nat
  filename : String
  filePath : String
  fileSize : Nat
  mimeType : Option String := none
  status : FileStatus
  errorMessage : Option String := none
  totalRows : Nat := 0
  processedRows : Nat := 0
  sender : Option String := none
  subject : Option String := none
  fileHash : String
  receivedAt : Option Nat := none
  deriving DecidableEq

/-- A persisted `bordereaux_validation_errors` row (DB surrogate ids are not
modelled). -/
structure ErrDBRec where
  fileId : Nat
  err : ErrRec
  deriving DecidableEq

/-- The database plus the content-addressed file store: the tables the claims
touch (persisted `BordereauxRow`s are `CanonicalRow`s carrying their
`file_id`), the on-disk store as a path → bytes association list, and the
autoincrement counter for `bordereaux_files.id`. -/
structure DBState where
  files : List FileRec := []
  rows : List CanonicalRow := []
  errors : List ErrDBRec := []
  disk : List (String × List Nat) := []
  nextId : Nat := 1
  deriving DecidableEq

/-- Embedding of `_get_mime_type` (storage_service.py lines 42-50): extension-based MIME
lookup (the extension is the lower-cased part from the last dot on). -/
def fileExtension (filename : String) : String :=
  let l := filename.data.map Char.toLower
  if l.contains '.' then
    '.' :: ((l.reverse.takeWhile (fun c => c != '.')).reverse) |> String.mk
  else ""

/-- The MIME table of `_get_mime_type`. -/
def getMimeType (filename : String) : Option String :=
  let ext := fileExtension filename
  if ext == ".xlsx" then
    some "application/vnd.openxmlformats-officedocument.spreadsheetml.sheet"
  else if ext == ".xls" then some "application/vnd.ms-excel"
  else if ext == ".csv" then some "text/csv"
  else none

/-- Filename sanitization inside `_generate_unique_filename` (line 37): keep
only alphanumerics, `.`, `_` and `-`. -/
def sanitizeFilename (s : String) : String :=
  String.mk (s.data.filter (fun c => c.isAlphanum || c == '.' || c == '_' || c == '-'))

/-- Embedding of the unique storage filename, hash prefix, timestamp and sanitized original name joined by underscores.
The rendered UTC timestamp is passed in as a string. -/
def uniqueFilename (fileHash : String) (ts : String) (original : String) : String :=
  String.mk (fileHash.data.take 8) ++ "_" ++ ts ++ "_" ++ sanitizeFilename original

/-- The configured `storage_base_path` (default `./storage`). -/
def storageBasePath : String := "./storage"

/-- Result dictionary of `save_raw_file`. -/
structure SaveResult where
  fileId : Nat
  status : FileStatus
  isDuplicate : Bool
  deriving DecidableEq

/-- Embedding of `save_raw_file` (storage_service.py lines 52-147).  The SHA-256 digest is
abstracted as an arbitrary hash function `hashFn`; `ts` is the rendered UTC
timestamp and `now` the current time used when `received_at` is absent.
If a record with the same content hash exists, its id and current status are
returned with `is_duplicate = true` and nothing is written; otherwise the
bytes are written under a fresh storage name and a `pending` row is
inserted. -/
def saveRawFile (hashFn : List Nat → String) (ts : String) (now : Nat)
    (st : DBState) (fileBytes : List Nat) (filename : String)
    (sourceEmail : Option String) (receivedAt : Option Nat)
    (subject : Option String) : DBState × SaveResult :=
  let fileHash := hashFn fileBytes
  match st.files.find? (fun f => f.fileHash == fileHash) with
  | some existing => (st, ⟨existing.id, existing.status, true⟩)
  | none =>
    let path := storageBasePath ++ "/" ++ uniqueFilename fileHash ts filename
    let newFile : FileRec :=
      { id := st.nextId, filename := filename, filePath := path,
        fileSize := fileBytes.length, mimeType := getMimeType filename,
        status := .pending, sender := sourceEmail, subject := subject,
        fileHash := fileHash, receivedAt := some (receivedAt.getD now) }
    ({ st with files := st.files ++ [newFile],
               disk := st.disk ++ [(path, fileBytes)],
               nextId := st.nextId + 1 },
     ⟨newFile.id, .pending, false⟩)

/-- Database exceptions raised by the storage layer. -/
inductive DbExc where
  | integrityError
  deriving DecidableEq

/-- Embedding of `delete_file` (storage_service.py lines 208-238).
Returns `false` when the record does not exist.  Otherwise the stored file is
unlinked first (lines 226-232, tolerating an already absent file: the
`filter` is a no-op then), and only then is the DB row deleted and committed
(lines 235-236).  At the ORM level the commit behaves differently for the
two child tables: the `rows` relationship (bordereaux.py line 67) carries
`cascade="all, delete-orphan"`, so the file's `BordereauxRow`s are deleted
with it; but the `BordereauxValidationError.file` relationship
(validation.py line 24) is a plain `backref` with no delete cascade and no
`passive_deletes`, so the flush nullifies the children's `file_id` — a
`NOT NULL` column (validation.py line 14) — and `db.commit()` raises
`IntegrityError` whenever the file owns validation errors.  The column-level
`ondelete="CASCADE"` never fires because the ORM issues the `UPDATE` itself.
On that exception the transaction leaves the database unchanged, while the
bytes on disk are already gone. -/
def deleteFile (st : DBState) (fileId : Nat) : DBState × Except DbExc Bool :=
  match st.files.find? (fun f => f.id == fileId) with
  | none => (st, .ok false)
  | some f =>
    let st₁ := { st with disk := st.disk.filter (fun d => d.1 != f.filePath) }
    if st.errors.any (fun e => e.fileId == fileId) then
      (st₁, .error .integrityError)
    else
      ({ st₁ with files := st₁.files.filter (fun g => g.id != fileId),
                  rows := st₁.rows.filter (fun r => r.fileId != fileId) },
       .ok true)

/-- C3: `save` is idempotent and deduplicating.  For every state and byte
sequence, saving twice in a row returns the same `file_id`; the second call
reports `is_duplicate = true` together with the stored record's current
status, and changes nothing at all (no filesystem write, no record field
touched). -/
theorem C3_save_idempotent (hashFn : List Nat → String) (ts₁ ts₂ : String)
    (now₁ now₂ : Nat) (st : DBState) (B : List Nat) (fn₁ fn₂ : String)
    (se₁ se₂ : Option String) (ra₁ ra₂ : Option Nat) (su₁ su₂ : Option String) :
    (saveRawFile hashFn ts₂ now₂
        (saveRawFile hashFn ts₁ now₁ st B fn₁ se₁ ra₁ su₁).1 B fn₂ se₂ ra₂ su₂).2.fileId =
      (saveRawFile hashFn ts₁ now₁ st B fn₁ se₁ ra₁ su₁).2.fileId ∧
    (saveRawFile hashFn ts₂ now₂
        (saveRawFile hashFn ts₁ now₁ st B fn₁ se₁ ra₁ su₁).1 B fn₂ se₂ ra₂ su₂).2.isDuplicate = true ∧
    (saveRawFile hashFn ts₂ now₂
        (saveRawFile hashFn ts₁ now₁ st B fn₁ se₁ ra₁ su₁).1 B fn₂ se₂ ra₂ su₂).1 =
      (saveRawFile hashFn ts₁ now₁ st B fn₁ se₁ ra₁ su₁).1 ∧
    ∃ f ∈ (saveRawFile hashFn ts₁ now₁ st B fn₁ se₁ ra₁ su₁).1.files,
      f.id = (saveRawFile hashFn ts₁ now₁ st B fn₁ se₁ ra₁ su₁).2.fileId ∧
      f.fileHash = hashFn B ∧
      (saveRawFile hashFn ts₂ now₂
        (saveRawFile hashFn ts₁ now₁ st B fn₁ se₁ ra₁ su₁).1 B fn₂ se₂ ra₂ su₂).2.status = f.status := by
  cases h : st.files.find? (fun f => f.fileHash == hashFn B) with
  | some existing =>
    have hmem := List.mem_of_find?_eq_some h
    have hhash : existing.fileHash = hashFn B := by
      have := List.find?_some h
      simpa using this
    simp only [saveRawFile, h]
    refine ⟨by trivial, by trivial, by trivial, existing, hmem, by trivial, hhash, by trivial⟩
  | none =>
    simp only [saveRawFile, h]
    rw [List.find?_append, h]
    simp [List.find?]
    exact ⟨_, Or.inr rfl, rfl, rfl, rfl⟩

/-- A concrete state for exercising `delete_file`: file 1 is stored on disk
and owns one row and one validation error. -/
def dbDel : DBState :=
  { files := [{ id := 1, filename := "a.csv", filePath := "./storage/x_ts_a.csv",
                fileSize := 2, mimeType := some "text/csv",
                status := .processedWithErrors, fileHash := "h1" }],
    rows := [{ policyNumber := some "POL1", fileId := 1, rowNumber := some 1 }],
    errors := [⟨1, { rowIndex := 1, errorCode := "REQUIRED_FIELD_MISSING",
                     errorMessage := "Required field policy_number is missing or null",
                     fieldName := some "policy_number", fieldValue := [],
                     ruleName := some "required_field" }⟩],
    disk := [("./storage/x_ts_a.csv", [1, 2])],
    nextId := 2 }

/-- A second concrete state: file 2 is stored on disk and owns one row but
no validation errors. -/
def dbDelClean : DBState :=
  { files := [{ id := 2, filename := "b.csv", filePath := "./storage/y_ts_b.csv",
                fileSize := 2, mimeType := some "text/csv",
                status := .processedOk, fileHash := "h2" }],
    rows := [{ policyNumber := some "POL2", fileId := 2, rowNumber := some 1 }],
    errors := [],
    disk := [("./storage/y_ts_b.csv", [3, 4])],
    nextId := 3 }

/-- C4: `delete(file_id)` does not succeed for a file owning validation
errors.  On `dbDel` (file 1 with one row and one `ValidationError`) the
commit raises `IntegrityError` — the ORM nullifies the error rows'
`NOT NULL` `file_id` because the relationship has no delete cascade — so the
file row, its `BordereauxRow` and its `ValidationError` all survive, while
the stored bytes were already unlinked before the failed delete.  Only for a
file without validation errors (`dbDelClean`) does delete succeed and leave
zero rows, zero errors and no bytes behind. -/
theorem C4_delete_raises_for_files_with_errors :
    (deleteFile dbDel 1).2 = .error .integrityError ∧
    (deleteFile dbDel 1).1.files = dbDel.files ∧
    (deleteFile dbDel 1).1.rows = dbDel.rows ∧
    (deleteFile dbDel 1).1.errors = dbDel.errors ∧
    (deleteFile dbDel 1).1.errors.any (fun e => e.fileId == 1) = true ∧
    (deleteFile dbDel 1).1.disk = [] ∧
    (deleteFile dbDelClean 2).2 = .ok true ∧
    (deleteFile dbDelClean 2).1.files = [] ∧
    (deleteFile dbDelClean 2).1.rows = [] ∧
    (deleteFile dbDelClean 2).1.errors = [] ∧
    (deleteFile dbDelClean 2).1.disk = [] := by
  refine ⟨rfl, by decide, by decide, by decide, by decide, by decide,
          rfl, by decide, by decide, by decide, by decide⟩

/-! Section: Processing service (processing_service.py) -/

/-- Embedding of `_update_file_stats` (lines 59-94): set `total_rows`, `processed_rows`,
`status` and `processed_at` on the file row, and set or clear
`error_message` depending on the error count (the count interpolated into
the message text is elided). -/
def updateFileStats (st : DBState) (fileId totalRows validCount errorCount : Nat)
    (status : FileStatus) : DBState :=
  { st with files := st.files.map (fun f =>
      if f.id == fileId then
        { f with totalRows := totalRows, processedRows := validCount,
                 status := status,
                 errorMessage :=
                   if errorCount > 0 then some "Processed with validation errors"
                   else none }
      else f) }

/-- Embedding of `process_and_persist` (processing_service.py lines 96-223): validate the
canonical rows, append each valid row (with its `file_id` forced to this
file) to `bordereaux_rows`, append one `bordereaux_validation_errors` record
per error dictionary, and update the file's stats and status
(`processed_ok` when the error count is zero, else `processed_with_errors`).
Nothing in it deletes previously persisted rows or errors.  The returned
triple is `(total_rows, valid_rows, error_rows)`.  The per-row `try/except`
guards ORM object construction only and does not fire in the model; the
JSON error report on disk is not modelled. -/
def processAndPersist (rules : Rules) (st : DBState) (fileId : Nat)
    (canonicalRows : List CanonicalRow) : DBState × (Nat × Nat × Nat) :=
  let validated := validateRows rules canonicalRows
  let valid := validated.1
  let errs := validated.2
  let savedRows := valid.map (fun r => { r with fileId := fileId })
  let st₁ := { st with rows := st.rows ++ savedRows }
  let st₂ := { st₁ with errors := st₁.errors ++ errs.map (fun e => ⟨fileId, e⟩) }
  let status := if errs.length == 0 then FileStatus.processedOk
                else FileStatus.processedWithErrors
  (updateFileStats st₂ fileId canonicalRows.length valid.length errs.length status,
   (canonicalRows.length, valid.length, errs.length))

/-- The row persisted for file 1 by an earlier run. -/
def oldRow : CanonicalRow := { policyNumber := some "OLD", fileId := 1, rowNumber := some 1 }

/-- The validation error persisted for file 1 by an earlier run. -/
def oldErr : ErrDBRec :=
  ⟨1, { rowIndex := 1, errorCode := "NUMERIC_VALIDATION_FAILED",
        errorMessage := "Premium amount must be greater than or equal to 0",
        fieldName := some "premium_amount", fieldValue := [FVal.q (-5)],
        ruleName := some "premium_non_negative" }⟩

/-- The single valid row produced by reprocessing file 1. -/
def newRow : CanonicalRow := { policyNumber := some "POL1", fileId := 1, rowNumber := some 1 }

/-- The state in which file 1 is reprocessed: one stale row and one stale
error from the earlier run are persisted. -/
def dbReproc : DBState :=
  { files := [{ id := 1, filename := "f.csv", filePath := "./storage/f",
                fileSize := 1, mimeType := some "text/csv",
                status := .processedWithErrors, fileHash := "hf" }],
    rows := [oldRow],
    errors := [oldErr],
    disk := [("./storage/f", [0])],
    nextId := 2 }

/-- C1: the persistence step never clears previously persisted rows and
errors.  Reprocessing file 1 (one valid row, no new errors) leaves the stale
row and the stale error from the earlier run in place, so the stored records
are not exactly those produced by the latest run. -/
theorem C1_prior_rows_and_errors_not_cleared :
    (processAndPersist defaultRules dbReproc 1 [newRow]).1.rows = [oldRow, newRow] ∧
    (processAndPersist defaultRules dbReproc 1 [newRow]).1.errors = [oldErr] ∧
    (processAndPersist defaultRules dbReproc 1 [newRow]).1.rows ≠ [newRow] ∧
    (processAndPersist defaultRules dbReproc 1 [newRow]).1.errors ≠ [] := by
  refine ⟨by decide, by decide, by decide, by decide⟩

/-! Section: Mailbox poller (jobs/poll_mailbox.py) -/

/-- Embedding of `PollMailboxJob._update_file_status` (lines 21-35): set the status of the
file row with the given id (a no-op when the row is absent). -/
def pollUpdateFileStatus (st : DBState) (fileId : Nat) (status : FileStatus) : DBState :=
  { st with files := st.files.map (fun f =>
      if f.id == fileId then { f with status := status } else f) }

/-- One fetched entry as `EmailService.fetch_unread_emails` returns it: an
allowed attachment together with the id and metadata of the message it
belongs to (messages without allowed attachments produce no entries).
`ioFail` embeds the environment: it is true when handling this attachment
raises — e.g. a failed disk write inside `save_raw_file`; the embedding
places the failure before any visible effect of the attachment. -/
structure MailEntry where
  emailId : Nat
  bytes : List Nat
  filename : String
  sender : Option String
  subject : Option String
  receivedAt : Option Nat
  ioFail : Bool
  deriving DecidableEq

/-- Handling of one attachment inside the poll loop (lines 91-156): save the
file with the message metadata, then set the referenced file's status to
`received` — also when the save reported a duplicate.  A raised exception
contributes no effect and reports failure. -/
def processAttachment (hashFn : List Nat → String) (ts : String) (now : Nat)
    (st : DBState) (e : MailEntry) : DBState × Bool :=
  if e.ioFail then (st, false)
  else
    let saved := saveRawFile hashFn ts now st e.bytes e.filename e.sender e.receivedAt e.subject
    (pollUpdateFileStatus saved.1 saved.2.fileId .received, true)

/-- Distinct values in first-appearance order — the iteration order of the
`defaultdict` the poll loop groups attachments into. -/
def firstOccur : List Nat → List Nat
  | [] => []
  | x :: xs => x :: (firstOccur xs).filter (fun y => y != x)

/-- The fold step over one message's attachments: thread the state and
conjoin the per-message success flag. -/
def groupStep (hashFn : List Nat → String) (ts : String) (now : Nat)
    (acc : DBState × Bool) (e : MailEntry) : DBState × Bool :=
  let step := processAttachment hashFn ts now acc.1 e
  (step.1, acc.2 && step.2)

/-- Processing of one message's attachments; the flag starts `true` and
drops to `false` on the first failed attachment (`email_results`). -/
def processGroup (hashFn : List Nat → String) (ts : String) (now : Nat)
    (st : DBState) (atts : List MailEntry) : DBState × Bool :=
  atts.foldl (groupStep hashFn ts now) (st, true)

/-- The fold step over message ids: process the message's attachments and
append its id to the to-be-marked-seen list when every attachment
succeeded. -/
def pollStep (hashFn : List Nat → String) (ts : String) (now : Nat)
    (entries : List MailEntry) (acc : DBState × List Nat) (gid : Nat) :
    DBState × List Nat :=
  let group := entries.filter (fun e => e.emailId == gid)
  let res := processGroup hashFn ts now acc.1 group
  (res.1, if res.2 then acc.2 ++ [gid] else acc.2)

/-- Embedding of `PollMailboxJob.run` (lines 37-199): group the fetched attachment entries
by message id (first-appearance order), process every message's attachments,
and mark as seen exactly the messages whose every attachment was saved
without exception.  Returns the final state and the list of message ids
marked seen. -/
def runPoll (hashFn : List Nat → String) (ts : String) (now : Nat)
    (st : DBState) (entries : List MailEntry) : DBState × List Nat :=
  (firstOccur (entries.map (fun e => e.emailId))).foldl
    (pollStep hashFn ts now entries) (st, [])

/-- The success flag of one attachment is exactly the absence of an
exception. -/
theorem processAttachment_snd (hashFn : List Nat → String) (ts : String)
    (now : Nat) (st : DBState) (e : MailEntry) :
    (processAttachment hashFn ts now st e).2 = !e.ioFail := by
  cases h : e.ioFail <;> simp [processAttachment, h]

/-- The per-message success flag after folding over the attachments:
the starting flag conjoined with "no attachment failed". -/
theorem processGroup_flag (hashFn : List Nat → String) (ts : String) (now : Nat) :
    ∀ (atts : List MailEntry) (st : DBState) (b : Bool),
      (atts.foldl (groupStep hashFn ts now) (st, b)).2 =
        (b && atts.all (fun e => !e.ioFail)) := by
  intro atts
  induction atts with
  | nil => intro st b; simp
  | cons e atts ih =>
    intro st b
    rw [List.foldl_cons, List.all_cons]
    have : groupStep hashFn ts now (st, b) e =
        ((processAttachment hashFn ts now st e).1, b && !e.ioFail) := by
      rw [groupStep, processAttachment_snd]
    rw [this, ih]
    rw [Bool.and_assoc]

/-- The ids marked seen by the poll fold: exactly the scanned ids whose
every attachment succeeded, in order, appended to the accumulator. -/
theorem pollFold_seen (hashFn : List Nat → String) (ts : String) (now : Nat)
    (entries : List MailEntry) :
    ∀ (ids : List Nat) (st : DBState) (acc : List Nat),
      (ids.foldl (pollStep hashFn ts now entries) (st, acc)).2 =
        acc ++ ids.filter (fun gid =>
          (entries.filter (fun e => e.emailId == gid)).all (fun e => !e.ioFail)) := by
  intro ids
  induction ids with
  | nil => intro st acc; simp
  | cons gid ids ih =>
    intro st acc
    rw [List.foldl_cons]
    have hflag := processGroup_flag hashFn ts now
      (entries.filter (fun e => e.emailId == gid))
      st true
    by_cases h : (entries.filter (fun e => e.emailId == gid)).all (fun e => !e.ioFail) = true
    · have : pollStep hashFn ts now entries (st, acc) gid =
          ((processGroup hashFn ts now st
              (entries.filter (fun e => e.emailId == gid))).1, acc ++ [gid]) := by
        rw [pollStep]
        simp [processGroup, hflag, h]
      rw [this, ih, List.filter_cons, if_pos h]
      simp
    · have : pollStep hashFn ts now entries (st, acc) gid =
          ((processGroup hashFn ts now st
              (entries.filter (fun e => e.emailId == gid))).1, acc) := by
        rw [pollStep]
        simp [processGroup, hflag, h]
      rw [this, ih, List.filter_cons, if_neg h]

/-- Lemma: `firstOccur` keeps exactly the values of the input list. -/
theorem mem_firstOccur (x : Nat) : ∀ (l : List Nat), x ∈ firstOccur l ↔ x ∈ l := by
  intro l
  induction l with
  | nil => simp [firstOccur]
  | cons y ys ih =>
    by_cases hxy : x = y
    · subst hxy; simp [firstOccur]
    · simp [firstOccur, List.mem_filter, ih, hxy, List.mem_cons]

/-- The invariant threaded through the poll: some stored file carries the
given content hash and has status `received`. -/
def hashReceived (h : String) (st : DBState) : Prop :=
  ∃ f ∈ st.files, f.fileHash = h ∧ f.status = FileStatus.received

/-- A save keeps every stored file record (it only ever appends). -/
theorem saveRawFile_files_mono (hashFn : List Nat → String) (ts : String)
    (now : Nat) (st : DBState) (B : List Nat) (fn : String)
    (se : Option String) (ra : Option Nat) (su : Option String) :
    ∀ f ∈ st.files, f ∈ (saveRawFile hashFn ts now st B fn se ra su).1.files := by
  intro f hf
  cases h : st.files.find? (fun g => g.fileHash == hashFn B) with
  | some existing => simpa [saveRawFile, h] using hf
  | none => simp [saveRawFile, h]; exact Or.inl hf

/-- Setting a file's status to `received` preserves the invariant. -/
theorem pollUpdate_preserves (h : String) (st : DBState) (fid : Nat)
    (hinv : hashReceived h st) :
    hashReceived h (pollUpdateFileStatus st fid FileStatus.received) := by
  obtain ⟨f, hf, hhash, hstatus⟩ := hinv
  by_cases hid : (f.id == fid) = true
  · exact ⟨{ f with status := .received },
      List.mem_map.mpr ⟨f, hf, by simp [pollUpdateFileStatus, hid]⟩, hhash, rfl⟩
  · exact ⟨f, List.mem_map.mpr ⟨f, hf, by simp [pollUpdateFileStatus, hid]⟩, hhash, hstatus⟩

/-- Handling any attachment preserves the invariant. -/
theorem processAttachment_preserves (hashFn : List Nat → String) (ts : String)
    (now : Nat) (st : DBState) (e : MailEntry) (h : String)
    (hinv : hashReceived h st) :
    hashReceived h (processAttachment hashFn ts now st e).1 := by
  cases hio : e.ioFail with
  | true => simpa [processAttachment, hio] using hinv
  | false =>
    simp only [processAttachment, hio, Bool.false_eq_true, if_false]
    apply pollUpdate_preserves
    obtain ⟨f, hf, hhash, hstatus⟩ := hinv
    exact ⟨f, saveRawFile_files_mono hashFn ts now st e.bytes e.filename
      e.sender e.receivedAt e.subject f hf, hhash, hstatus⟩

/-- Handling an attachment that does not raise establishes the invariant for
that attachment's content hash: afterwards the referenced file is stored
with status `received`. -/
theorem processAttachment_establishes (hashFn : List Nat → String) (ts : String)
    (now : Nat) (st : DBState) (e : MailEntry) (hio : e.ioFail = false) :
    hashReceived (hashFn e.bytes) (processAttachment hashFn ts now st e).1 := by
  simp only [processAttachment, hio, Bool.false_eq_true, if_false]
  cases h : st.files.find? (fun g => g.fileHash == hashFn e.bytes) with
  | some old =>
    have hmem := List.mem_of_find?_eq_some h
    have hhash : old.fileHash = hashFn e.bytes := by
      have := List.find?_some h
      simpa using this
    simp only [saveRawFile, h]
    exact ⟨{ old with status := .received },
      List.mem_map.mpr ⟨old, hmem, by simp⟩, hhash, rfl⟩
  | none =>
    simp only [saveRawFile, h, pollUpdateFileStatus]
    refine ⟨_, List.mem_map.mpr ⟨_, List.mem_append_right _ (List.mem_singleton.mpr rfl), rfl⟩, ?_⟩
    simp

/-- Folding over a message's attachments preserves the invariant. -/
theorem groupFold_preserves (hashFn : List Nat → String) (ts : String)
    (now : Nat) (h : String) :
    ∀ (atts : List MailEntry) (st : DBState) (b : Bool),
      hashReceived h st →
      hashReceived h (atts.foldl (groupStep hashFn ts now) (st, b)).1 := by
  intro atts
  induction atts with
  | nil => intro st b hinv; simpa using hinv
  | cons e atts ih =>
    intro st b hinv
    have hpair : groupStep hashFn ts now (st, b) e =
        ((processAttachment hashFn ts now st e).1,
         b && (processAttachment hashFn ts now st e).2) := rfl
    rw [List.foldl_cons, hpair]
    exact ih _ _ (processAttachment_preserves hashFn ts now st e h hinv)

/-- A non-raising attachment inside a group leaves its file stored with
status `received` at the end of the group. -/
theorem groupFold_establishes (hashFn : List Nat → String) (ts : String)
    (now : Nat) :
    ∀ (atts : List MailEntry) (st : DBState) (b : Bool) (e : MailEntry),
      e ∈ atts → e.ioFail = false →
      hashReceived (hashFn e.bytes) (atts.foldl (groupStep hashFn ts now) (st, b)).1 := by
  intro atts
  induction atts with
  | nil => intro st b e he; cases he
  | cons a atts ih =>
    intro st b e he hio
    have hpair : groupStep hashFn ts now (st, b) a =
        ((processAttachment hashFn ts now st a).1,
         b && (processAttachment hashFn ts now st a).2) := rfl
    rw [List.foldl_cons, hpair]
    rcases List.mem_cons.mp he with heq | hmem
    · subst heq
      exact groupFold_preserves hashFn ts now _ atts _ _
        (processAttachment_establishes hashFn ts now st e hio)
    · exact ih _ _ e hmem hio

/-- Folding over the remaining message ids preserves the invariant. -/
theorem pollFold_preserves (hashFn : List Nat → String) (ts : String)
    (now : Nat) (entries : List MailEntry) (h : String) :
    ∀ (ids : List Nat) (st : DBState) (acc : List Nat),
      hashReceived h st →
      hashReceived h (ids.foldl (pollStep hashFn ts now entries) (st, acc)).1 := by
  intro ids
  induction ids with
  | nil => intro st acc hinv; simpa using hinv
  | cons gid ids ih =>
    intro st acc hinv
    rw [List.foldl_cons]
    have hpair : pollStep hashFn ts now entries (st, acc) gid =
        ((processGroup hashFn ts now st (entries.filter (fun e => e.emailId == gid))).1,
         if (processGroup hashFn ts now st (entries.filter (fun e => e.emailId == gid))).2
         then acc ++ [gid] else acc) := rfl
    rw [hpair]
    exact ih _ _ (groupFold_preserves hashFn ts now h _ st true hinv)

/-- A non-raising attachment of any scanned message leaves its file stored
with status `received` at the end of the poll. -/
theorem pollFold_establishes (hashFn : List Nat → String) (ts : String)
    (now : Nat) (entries : List MailEntry) :
    ∀ (ids : List Nat) (st : DBState) (acc : List Nat) (e : MailEntry),
      e ∈ entries → e.ioFail = false → e.emailId ∈ ids →
      hashReceived (hashFn e.bytes)
        (ids.foldl (pollStep hashFn ts now entries) (st, acc)).1 := by
  intro ids
  induction ids with
  | nil => intro st acc e _ _ hgid; cases hgid
  | cons gid ids ih =>
    intro st acc e he hio hgid
    have hpair : pollStep hashFn ts now entries (st, acc) gid =
        ((processGroup hashFn ts now st (entries.filter (fun x => x.emailId == gid))).1,
         if (processGroup hashFn ts now st (entries.filter (fun x => x.emailId == gid))).2
         then acc ++ [gid] else acc) := rfl
    rw [List.foldl_cons, hpair]
    rcases List.mem_cons.mp hgid with heq | hmem
    · have hein : e ∈ entries.filter (fun x => x.emailId == gid) :=
        List.mem_filter.mpr ⟨he, by simp [heq]⟩
      exact pollFold_preserves hashFn ts now entries _ ids _ _
        (groupFold_establishes hashFn ts now _ st true e hein hio)
    · exact ih _ _ e he hio hmem

/-- C5: a fetched message — one that contributed at least one allowed
attachment entry — is marked seen iff every one of its attachments was saved
without exception; and every attachment that saved stays saved (its file is
stored with status `received` at the end of the poll), also when other
attachments of its message failed. -/
theorem C5_mark_seen_iff_all_saved (hashFn : List Nat → String) (ts : String)
    (now : Nat) (st : DBState) (entries : List MailEntry) (gid : Nat)
    (hmem : gid ∈ entries.map (fun e => e.emailId)) :
    (gid ∈ (runPoll hashFn ts now st entries).2 ↔
      ∀ e ∈ entries, e.emailId = gid → e.ioFail = false) ∧
    (∀ e ∈ entries, e.ioFail = false →
      hashReceived (hashFn e.bytes) (runPoll hashFn ts now st entries).1) := by
  constructor
  · rw [runPoll, pollFold_seen]
    rw [List.nil_append, List.mem_filter]
    constructor
    · rintro ⟨-, hall⟩ e he heq
      have := List.all_eq_true.mp hall e (List.mem_filter.mpr ⟨he, by simp [heq]⟩)
      simpa using this
    · intro hforall
      refine ⟨(mem_firstOccur gid _).mpr hmem, List.all_eq_true.mpr ?_⟩
      intro e he'
      obtain ⟨he, heq⟩ := List.mem_filter.mp he'
      have heid : e.emailId = gid := by simpa using heq
      simpa using hforall e he heid
  · intro e he hio
    rw [runPoll]
    refine pollFold_establishes hashFn ts now entries _ st [] e he hio ?_
    rw [mem_firstOccur]
    exact List.mem_map.mpr ⟨e, he, rfl⟩

/-- The poll scenario: message 7 has one good and one failing attachment,
message 9 has one good attachment. -/
def entPoll : List MailEntry :=
  [⟨7, [1], "ok.xlsx", some "a@x.com", some "claims", none, false⟩,
   ⟨7, [2], "bad.xlsx", some "a@x.com", some "claims", none, true⟩,
   ⟨9, [3], "good.csv", some "b@x.com", none, none, false⟩]

/-- Witness for C5 at the concrete poll scenario. -/
theorem C5_mark_seen_iff_all_saved_witness :
    (9 ∈ (runPoll (fun _ => "h") "ts" 0 {} entPoll).2 ↔
      ∀ e ∈ entPoll, e.emailId = 9 → e.ioFail = false) ∧
    (∀ e ∈ entPoll, e.ioFail = false →
      hashReceived ((fun _ => "h") e.bytes) (runPoll (fun _ => "h") "ts" 0 {} entPoll).1) :=
  C5_mark_seen_iff_all_saved (fun _ => "h") "ts" 0 {} entPoll 9 (by decide)

/-- C6: every attachment the poller saves without exception ends with the
referenced file's status set to `received`; in particular, when the bytes
duplicate an already stored file, that file's record is moved back to
`received` whatever status it had. -/
theorem C6_attachment_sets_status_received (hashFn : List Nat → String)
    (ts : String) (now : Nat) (st : DBState) (e : MailEntry)
    (hio : e.ioFail = false) :
    hashReceived (hashFn e.bytes) (processAttachment hashFn ts now st e).1 ∧
    ∀ old, st.files.find? (fun f => f.fileHash == hashFn e.bytes) = some old →
      { old with status := FileStatus.received } ∈
        (processAttachment hashFn ts now st e).1.files := by
  refine ⟨processAttachment_establishes hashFn ts now st e hio, ?_⟩
  intro old hfind
  simp only [processAttachment, hio, Bool.false_eq_true, if_false]
  simp only [saveRawFile, hfind, pollUpdateFileStatus]
  exact List.mem_map.mpr ⟨old, List.mem_of_find?_eq_some hfind, by simp⟩

/-- A stored file in a terminal state, about to be duplicated by mail. -/
def dbDup : DBState :=
  { files := [{ id := 1, filename := "a.csv", filePath := "./storage/p",
                fileSize := 1, mimeType := some "text/csv",
                status := .processedOk, fileHash := "h" }],
    nextId := 2 }

/-- The duplicate attachment of the C6 scenario. -/
def entDup : MailEntry := ⟨4, [9], "a.csv", some "s@x.com", none, none, false⟩

/-- Witness for C6: the duplicate attachment moves the `processed_ok` file
back to `received`. -/
theorem C6_attachment_sets_status_received_witness :
    hashReceived ((fun _ => "h") entDup.bytes)
      (processAttachment (fun _ => "h") "ts" 0 dbDup entDup).1 ∧
    ∀ old, dbDup.files.find? (fun f => f.fileHash == (fun _ => "h") entDup.bytes) = some old →
      { old with status := FileStatus.received } ∈
        (processAttachment (fun _ => "h") "ts" 0 dbDup entDup).1.files :=
  C6_attachment_sets_status_received (fun _ => "h") "ts" 0 dbDup entDup (by decide)

/-! Section: Template repository (template_repository.py) -/

/-- A `templates` DB row. -/
structure TemplateRec where
  templateId : String
  name : String
  carrier : Option String
  fileType : String
  pattern : Option String
  columnMappings : List (String × String)
  version : String
  activeFlag : Bool
  jsonFilePath : Option String
  deriving DecidableEq

/-- The `template_data` dictionary mirrored to a JSON sidecar
(also the shape of `TemplateCreate`). -/
structure SidecarData where
  templateId : String
  name : String
  carrier : Option String
  fileType : String
  pattern : Option String
  columnMappings : List (String × String)
  version : String
  activeFlag : Bool
  deriving DecidableEq

/-- The template store: the `templates` table and the sidecar files under
the templates directory (path → content). -/
structure TState where
  db : List TemplateRec := []
  sidecars : List (String × SidecarData) := []
  deriving DecidableEq

/-- Embedding of the sidecar path rule: the templates directory, the template id and a json suffix. -/
def jsonFilePathOf (templateId : String) : String :=
  "templates/" ++ templateId ++ ".json"

/-- Writing a sidecar file (overwrite semantics of `open(..., "w")`). -/
def writeSidecar (sidecars : List (String × SidecarData)) (path : String)
    (data : SidecarData) : List (String × SidecarData) :=
  sidecars.filter (fun p => p.1 != path) ++ [(path, data)]

/-- The DB row `create` builds from a `TemplateCreate`. -/
def dbRecOfCreate (t : SidecarData) : TemplateRec :=
  { templateId := t.templateId, name := t.name, carrier := t.carrier,
    fileType := t.fileType, pattern := t.pattern,
    columnMappings := t.columnMappings, version := t.version,
    activeFlag := t.activeFlag,
    jsonFilePath := some (jsonFilePathOf t.templateId) }

/-- Embedding of `TemplateRepository.create` (lines 62-104).  The JSON sidecar is written
first (line 85) and only then is the DB row added and committed.
`sidecarFails` embeds a filesystem error inside `_save_template_to_json`;
the source wraps it in no `try/except`, so the exception propagates before
any DB write happens. -/
def templateCreate (st : TState) (sidecarFails : Bool) (t : SidecarData) :
    TState × Except Unit TemplateRec :=
  if sidecarFails then (st, .error ())
  else
    let path := jsonFilePathOf t.templateId
    ({ db := st.db ++ [dbRecOfCreate t],
       sidecars := writeSidecar st.sidecars path t }, .ok (dbRecOfCreate t))

/-- A `TemplateUpdate`: `None` fields are left untouched. -/
structure TemplateUpdate where
  name : Option String := none
  carrier : Option String := none
  fileType : Option String := none
  pattern : Option String := none
  columnMappings : Option (List (String × String)) := none
  version : Option String := none
  activeFlag : Option Bool := none
  jsonFilePath : Option String := none
  deriving DecidableEq

/-- The field-by-field mutation of the loaded row (lines 176-192). -/
def applyUpdate (r : TemplateRec) (u : TemplateUpdate) : TemplateRec :=
  { r with
    name := u.name.getD r.name,
    carrier := u.carrier.or r.carrier,
    fileType := u.fileType.getD r.fileType,
    pattern := u.pattern.or r.pattern,
    columnMappings := u.columnMappings.getD r.columnMappings,
    version := u.version.getD r.version,
    activeFlag := u.activeFlag.getD r.activeFlag,
    jsonFilePath := u.jsonFilePath.or r.jsonFilePath }

/-- The sidecar content `update` writes (lines 195-204). -/
def sidecarOfRec (r : TemplateRec) : SidecarData :=
  { templateId := r.templateId, name := r.name, carrier := r.carrier,
    fileType := r.fileType, pattern := r.pattern,
    columnMappings := r.columnMappings, version := r.version,
    activeFlag := r.activeFlag }

/-- Embedding of `TemplateRepository.update` (lines 160-212): load the row by
`template_id` (`none` result when absent), mutate its fields, write the
sidecar, set `json_file_path`, then commit.  When the sidecar write raises,
the commit is never reached and the exception propagates: the DB keeps its
previous committed state. -/
def templateUpdate (st : TState) (sidecarFails : Bool) (templateId : String)
    (u : TemplateUpdate) : TState × Except Unit (Option TemplateRec) :=
  match st.db.find? (fun r => r.templateId == templateId) with
  | none => (st, .ok none)
  | some dbt =>
    if sidecarFails then (st, .error ())
    else
      let updated := applyUpdate dbt u
      let path := jsonFilePathOf dbt.templateId
      let final := { updated with jsonFilePath := some path }
      ({ db := st.db.map (fun r => if r.templateId == templateId then final else r),
         sidecars := writeSidecar st.sidecars path (sidecarOfRec updated) },
       .ok (some final))

/-- The template of the C7 scenario. -/
def tcC7 : SidecarData :=
  { templateId := "t_claims", name := "Claims template", carrier := none,
    fileType := "claims", pattern := none,
    columnMappings := [("Policy Number", "policy_number")],
    version := "1.0.0", activeFlag := true }

/-- C7 counterexample: creating `tcC7` in an empty store while the sidecar
write raises leaves the DB without the template — the claim that the DB
write comes first and survives a sidecar failure is false (the source writes
the sidecar first, and the uncaught exception prevents the DB write). -/
theorem C7_counterexample :
    (templateCreate {} true tcC7).2 = .error () ∧
    (templateCreate {} true tcC7).1.db = [] :=
  ⟨rfl, rfl⟩

/-- C7 amended: both `create` and `update` write the JSON sidecar before
committing the DB row, and a sidecar write failure propagates as an uncaught
exception that prevents the DB write: `create` leaves the store unchanged and
inserts nothing, `update` leaves the store unchanged and reports no updated
row; on sidecar success `create` does append the row. -/
theorem C7_sidecar_failure_blocks_db_write (st : TState) (t : SidecarData)
    (tid : String) (u : TemplateUpdate) :
    (templateCreate st true t).1 = st ∧
    (templateCreate st true t).2 = .error () ∧
    (templateCreate st false t).1.db = st.db ++ [dbRecOfCreate t] ∧
    (templateUpdate st true tid u).1 = st ∧
    (∀ r : TemplateRec, (templateUpdate st true tid u).2 ≠ .ok (some r)) := by
  refine ⟨rfl, rfl, rfl, ?_, ?_⟩
  · rw [templateUpdate]
    cases st.db.find? (fun r => r.templateId == tid) <;> simp
  · intro r
    rw [templateUpdate]
    cases st.db.find? (fun x => x.templateId == tid) <;> simp

/-- Witness for the amended C7 theorem at the concrete template. -/
theorem C7_sidecar_failure_blocks_db_write_witness :
    (templateCreate {} true tcC7).1 = ({} : TState) ∧
    (templateCreate {} true tcC7).2 = .error () ∧
    (templateCreate {} false tcC7).1.db = ([] : List TemplateRec) ++ [dbRecOfCreate tcC7] ∧
    (templateUpdate {} true "t_claims" {}).1 = ({} : TState) ∧
    (∀ r : TemplateRec, (templateUpdate {} true "t_claims" {}).2 ≠ .ok (some r)) :=
  C7_sidecar_failure_blocks_db_write {} tcC7 "t_claims" {}

end Bordereaux
